import Mathlib

/-!
Verification development for the salary-report module (`testing.py`).

The module has three algorithmic parts, embedded below:

* `calculate_salary_stats` (StatsCalculator): cleans one query's offer
  records and derives mean / median / min / max;
* `plot_distrib` (DistributionAggregator): converts the cleaned records
  into a weighted bucket histogram (only its pure, numeric part is
  embedded; the matplotlib drawing calls are presentation);
* `report_all` (ReportAssembler): collects per-query results, skipping
  queries whose stats computation fails, and orders them.

Conventions of the embedding:

* Offer records carry integer salaries (`Offer`).  The dynamically typed
  variant used to analyse the float behaviour of the bucket membership
  test is `OfferPy`, whose salaries are `PyNum` (an integer or a Python
  float, the latter modelled as an exact rational).
* Python float arithmetic on bucket weights is modelled by exact
  rationals (`ℚ`).
* A Python function that raises is modelled as returning `none`; pandas
  raises on `int(nan)` when a query cleans to zero records, and
  `report_all`'s `try/except` turns any such exception into a skip.
* The pandas expression on line 73,
  `df['maxSalary'].apply(lambda x: df['minSalary'] if x == 0 else x)`,
  maps a zero cell to the whole `minSalary` column (a `Series` object),
  never to the record's own value.  `cleaned_cells` embeds the resulting
  behaviour of `Series.apply` and the column assignment with the `Cell`
  type: when the first surviving record has `maxSalary = 0`, `apply`
  expands into a DataFrame — a single surviving row stores the 1-by-1
  frame's scalar, further rows make the expansion or the multi-column
  assignment raise (`none`, the query is dropped); otherwise the result
  is an element-wise object `Series` and a later zero cell holds the
  whole column.  `clean_offers` embeds the per-record replacement
  documented by the source comment
  (`# just in case; if maxSalary = 0 ; maxSalary = minSalary`), which is
  what the executable line visibly intends; the two agree on every input
  in which no surviving record has `maxSalary = 0`.
* `list.sort(key=...)` is a stable sort; `List.insertionSort` with the
  corresponding total preorder is extensionally the same function and is
  used as its embedding.
-/

/-- A raw offer record: the two numeric fields the core reads.  Other
fields of the source records are ignored by the computation. -/
structure Offer where
  minSalary : Int
  maxSalary : Int
deriving DecidableEq, Repr

/-- A value held by one cell of a pandas column: either a scalar number
or a whole column (`Series`) that was stored into the cell. -/
inductive Cell where
  | num : Int → Cell
  | series : List Int → Cell
deriving DecidableEq, Repr

/-- Records surviving the filter `df = df[df.minSalary != 0]` (line 71). -/
def survivors (offers : List Offer) : List Offer :=
  offers.filter (fun o => o.minSalary ≠ 0)

/-- Literal embedding of the cleaning step (lines 71-73): the filter,
then `df['maxSalary'] = df['maxSalary'].apply(lambda x: df['minSalary'] if x == 0 else x)`.
The lambda maps a zero cell to the whole filtered `minSalary` column (a
`Series`), never to the record's own value; what then happens follows
`Series.apply`:

* if the first surviving record has `maxSalary = 0`, the first mapped
  element is a `Series` and `apply` expands the results into a
  DataFrame.  With a single surviving row this is a 1-by-1 frame and the
  assignment stores its scalar (which is that record's `minSalary`);
  with further rows the expansion over mixed `Series`/scalar results, or
  the assignment of a multi-column frame, raises, and the query is
  dropped by the caller (`none`);
* otherwise `apply` returns an object `Series` element-wise, and every
  later surviving record with `maxSalary = 0` receives the whole column
  (`Cell.series`) in its cell. -/
def cleaned_cells (offers : List Offer) : Option (List (Int × Cell)) :=
  match survivors offers with
  | [] => some []
  | o₀ :: rest =>
    if o₀.maxSalary = 0 then
      if rest.isEmpty then some [(o₀.minSalary, Cell.num o₀.minSalary)]
      else none
    else
      some ((o₀ :: rest).map (fun (o : Offer) =>
        (o.minSalary,
         if o.maxSalary = 0 then Cell.series ((o₀ :: rest).map Offer.minSalary)
         else Cell.num o.maxSalary)))

/-- The cleaning step with the `maxSalary` replacement as documented by
the source comment on line 72 (`if maxSalary = 0 ; maxSalary = minSalary`,
applied per record).  Coincides with the executable behaviour whenever no
surviving record has `maxSalary = 0`. -/
def clean_offers (offers : List Offer) : List Offer :=
  (offers.filter (fun o => o.minSalary ≠ 0)).map (fun (o : Offer) =>
    { minSalary := o.minSalary
      maxSalary := if o.maxSalary = 0 then o.minSalary else o.maxSalary })

/-- Per-record midpoint `col.mean(axis=1).astype(int)` (line 79): the
exact mean `(minSalary + maxSalary) / 2` cast to `int`, which truncates
toward zero (`Int.tdiv`). -/
def salary_mean (o : Offer) : Int :=
  Int.tdiv (o.minSalary + o.maxSalary) 2

/-- `pandas.Series.min` on a nonempty integer column. -/
def listMin : List Int → Int
  | [] => 0
  | [x] => x
  | x :: y :: xs => min x (listMin (y :: xs))

/-- `pandas.Series.max` on a nonempty integer column. -/
def listMax : List Int → Int
  | [] => 0
  | [x] => x
  | x :: y :: xs => max x (listMax (y :: xs))

/-- `int(series.median())` (line 85): sort; odd count takes the middle
element, even count takes the exact average of the two middle elements
and `int(...)` truncates it toward zero. -/
def medianInt (l : List Int) : Int :=
  let s := List.insertionSort (· ≤ ·) l
  if s.length % 2 = 1 then s.getD (s.length / 2) 0
  else Int.tdiv (s.getD (s.length / 2 - 1) 0 + s.getD (s.length / 2) 0) 2

/-- The per-query summary returned by `calculate_salary_stats` (the
cleaned dataframe itself is carried separately where needed). -/
structure QueryStats where
  mean : Int
  median : Int
  min : Int
  max : Int
deriving DecidableEq, Repr

/-- `calculate_salary_stats` (lines 63-91) on the integer-valued records.
`none` models the two non-returning paths: empty `offers` (the function
body is skipped and `None` is returned), and a cleaning that leaves zero
records (pandas produces `nan` statistics and `int(nan)` raises; the
caller's `try/except` treats both as a skip).  On the remaining path the
statistics are computed from the cleaned records (`clean_offers`;
see the remark on line 73 in the file header). -/
def calculate_salary_stats (offers : List Offer) : Option QueryStats :=
  if offers.isEmpty then none
  else
    let cl := clean_offers offers
    if cl.isEmpty then none
    else
      let mids := cl.map salary_mean
      some { mean := Int.tdiv mids.sum (mids.length : Int)
             median := medianInt mids
             min := listMin (cl.map Offer.minSalary)
             max := listMax (cl.map Offer.maxSalary) }

/-- Modelled from the spec: `mean = floor(average(salaryMean_i))`. -/
def specMeanFloor (mids : List Int) : Int :=
  Int.fdiv mids.sum (mids.length : Int)

/-- Modelled from the spec: `median = floor(median(salaryMean_i))`, an
even count taking the average of the two middle values, then floored. -/
def specMedianFloor (l : List Int) : Int :=
  let s := List.insertionSort (· ≤ ·) l
  if s.length % 2 = 1 then s.getD (s.length / 2) 0
  else Int.fdiv (s.getD (s.length / 2 - 1) 0 + s.getD (s.length / 2) 0) 2

/-- Bucket grid of `plot_distrib` (lines 108-112):
`query_width = int(max_ // box_width) + 1` and
`indexes = [box * box_width for box in range(query_width)]`.
Python `//` on integers is flooring division (`Int.fdiv`); a
non-positive width yields an empty `range`. -/
def bucketGrid (rangeMax W : Int) : List Int :=
  (List.range (Int.toNat (Int.fdiv rangeMax W + 1))).map (fun (k : Nat) => (k : Int) * W)

/-- The buckets one offer falls into (lines 116-119):
`index in range(row['minSalary'], row['maxSalary'])` holds for an integer
`index` exactly when `minSalary ≤ index < maxSalary`. -/
def boxes_filled (grid : List Int) (o : Offer) : List Int :=
  grid.filter (fun b => o.minSalary ≤ b ∧ b < o.maxSalary)

/-- `defaultdict(int)` read: the weight stored for key `k`, `0` if absent. -/
def dictGet : List (Int × ℚ) → Int → ℚ
  | [], _ => 0
  | (k, v) :: rest, b => if b = k then v else dictGet rest b

/-- `res[box] += w` on a `defaultdict(int)`: update the entry in place,
or append a new entry (dicts preserve insertion order). -/
def dictAdd : List (Int × ℚ) → Int → ℚ → List (Int × ℚ)
  | [], k, w => [(k, w)]
  | (k', v) :: rest, k, w =>
      if k' = k then (k', v + w) :: rest else (k', v) :: dictAdd rest k w

/-- Total mass held by the dictionary: the sum of its stored weights. -/
def dictSum (d : List (Int × ℚ)) : ℚ :=
  (d.map Prod.snd).sum

/-- Keys ascending: the order `sorted(res.items())` uses (line 126). -/
def dictLe (a b : Int × ℚ) : Prop := a.1 ≤ b.1

instance : DecidableRel dictLe := fun a b => inferInstanceAs (Decidable (a.1 ≤ b.1))

/-- `collections.OrderedDict(sorted(res.items()))` (line 126). -/
def sortDict (d : List (Int × ℚ)) : List (Int × ℚ) :=
  List.insertionSort dictLe d

/-- One iteration of the offer loop (lines 115-124): collect the
overlapped buckets; if any, add weight `1/len(boxes_filled)` to each. -/
def addOfferWeight (res : List (Int × ℚ)) (grid : List Int) (o : Offer) : List (Int × ℚ) :=
  let filled := boxes_filled grid o
  if filled.isEmpty then res
  else filled.foldl (fun (r : List (Int × ℚ)) (box : Int) =>
    dictAdd r box (1 / (filled.length : ℚ))) res

/-- The pure numeric part of `plot_distrib` (lines 108-126): the sorted
bucket-weight dictionary handed to the bar chart.  Float weights are
modelled as exact rationals. -/
def plot_distrib (offers : List Offer) (W rangeMax : Int) : List (Int × ℚ) :=
  let grid := bucketGrid rangeMax W
  sortDict (offers.foldl (fun (res : List (Int × ℚ)) (o : Offer) =>
    addOfferWeight res grid o) [])

/-- Sort key of `report_all` (lines 31 and 52): the `(max_, median)`
component of a stats entry. -/
def statKey (s : QueryStats) : Int × Int := (s.max, s.median)

/-- Lexicographic `≤` on `(max, median)` pairs, the comparison Python
uses on the key tuples. -/
def keyLe (p q : Int × Int) : Prop := p.1 < q.1 ∨ (p.1 = q.1 ∧ p.2 ≤ q.2)

instance : DecidableRel keyLe := fun p q =>
  inferInstanceAs (Decidable (p.1 < q.1 ∨ (p.1 = q.1 ∧ p.2 ≤ q.2)))

/-- `a` may precede `b` in `stats.sort(key=..., reverse=True)` (line 31):
`b`'s key is lexicographically at most `a`'s. -/
def descBefore (a b : String × QueryStats) : Prop := keyLe (statKey b.2) (statKey a.2)

instance : DecidableRel descBefore := fun a b =>
  inferInstanceAs (Decidable (keyLe (statKey b.2) (statKey a.2)))

/-- `a` may precede `b` in the ascending re-sort `stats.sort(key=...)`
(line 52). -/
def ascBefore (a b : String × QueryStats) : Prop := keyLe (statKey a.2) (statKey b.2)

instance : DecidableRel ascBefore := fun a b =>
  inferInstanceAs (Decidable (keyLe (statKey a.2) (statKey b.2)))

/-- The descending ranking of line 31.  Python `list.sort` is a stable
sort, and a stable sort agrees extensionally with insertion sort over
the same before-relation. -/
def sortStatsDesc (l : List (String × QueryStats)) : List (String × QueryStats) :=
  List.insertionSort descBefore l

/-- The ascending re-sort of line 52. -/
def sortStatsAsc (l : List (String × QueryStats)) : List (String × QueryStats) :=
  List.insertionSort ascBefore l

instance : IsTotal (Int × Int) keyLe :=
  ⟨by intro p q; rw [keyLe, keyLe]; omega⟩

instance : IsTrans (Int × Int) keyLe :=
  ⟨by intro a b c hab hbc; rw [keyLe] at *; omega⟩

instance : IsTotal (String × QueryStats) descBefore :=
  ⟨fun a b => total_of keyLe (statKey b.2) (statKey a.2)⟩

instance : IsTrans (String × QueryStats) descBefore :=
  ⟨fun _ _ _ hab hbc => trans_of keyLe hbc hab⟩

instance : IsTotal (String × QueryStats) ascBefore :=
  ⟨fun a b => total_of keyLe (statKey a.2) (statKey b.2)⟩

instance : IsTrans (String × QueryStats) ascBefore :=
  ⟨fun _ _ _ hab hbc => trans_of keyLe hab hbc⟩

/-- The stats-collection and ordering skeleton of `report_all`
(lines 19-31 and 52): each query's stats are computed inside
`try/except`, a query whose computation fails (models a raised
exception, `calculate_salary_stats = none`) is silently skipped, and the
collected entries are ranked descending for the curve plot and ascending
for the stacked histograms.  Both orders are returned. -/
def report_all (queries : List (String × List Offer)) :
    List (String × QueryStats) × List (String × QueryStats) :=
  let stats := queries.filterMap (fun (q : String × List Offer) =>
    (calculate_salary_stats q.2).map (fun (s : QueryStats) => (q.1, s)))
  (sortStatsDesc stats, sortStatsAsc stats)

/-- A Python numeric value as it reaches the bucket loop: an `int`, or a
`float` (modelled as an exact rational). -/
inductive PyNum where
  | int : Int → PyNum
  | float : ℚ → PyNum
deriving DecidableEq, Repr

/-- Whether the value is a Python `int`. -/
def PyNum.isInt : PyNum → Bool
  | .int _ => true
  | .float _ => false

/-- An offer record with dynamically typed salary fields. -/
structure OfferPy where
  minSalary : PyNum
  maxSalary : PyNum
deriving DecidableEq, Repr

/-- `int(max_ // box_width)` when `max_` may be a float: `//` floors,
and `int` of the already-integral float is exact. -/
def pyFloorDivW : PyNum → Int → Int
  | .int n, w => Int.fdiv n w
  | .float q, w => ⌊q / (w : ℚ)⌋

/-- The bucket grid when the query's `max_` is dynamically typed. -/
def bucketGridPy (rangeMax : PyNum) (W : Int) : List Int :=
  (List.range (Int.toNat (pyFloorDivW rangeMax W + 1))).map (fun (k : Nat) => (k : Int) * W)

/-- `index in range(min, max)` under dynamic typing: defined only when
both bounds are `int`s; `range` raises `TypeError` on a float bound
(`none`). -/
def pyRangeMem (idx : Int) : PyNum → PyNum → Option Bool
  | .int a, .int b => some (decide (a ≤ idx ∧ idx < b))
  | _, _ => none

/-- The bucket-collection loop of lines 117-119 under dynamic typing:
`none` as soon as a membership test raises.  With an empty grid no test
runs and the result is `some []`. -/
def boxes_filled_py (grid : List Int) (o : OfferPy) : Option (List Int) :=
  grid.foldr
    (fun (b : Int) (acc : Option (List Int)) =>
      match pyRangeMem b o.minSalary o.maxSalary, acc with
      | some true, some l => some (b :: l)
      | some false, some l => some l
      | _, _ => none)
    (some [])

/-- One iteration of the offer loop under dynamic typing: a previously
raised exception propagates, a raised bucket test aborts, otherwise the
weights are accumulated exactly as in `addOfferWeight`. -/
def distribStepPy (grid : List Int) (acc : Option (List (Int × ℚ))) (o : OfferPy) :
    Option (List (Int × ℚ)) :=
  match acc with
  | none => none
  | some res =>
    match boxes_filled_py grid o with
    | none => none
    | some filled =>
      if filled.isEmpty then some res
      else some (filled.foldl (fun (r : List (Int × ℚ)) (box : Int) =>
        dictAdd r box (1 / (filled.length : ℚ))) res)

/-- `plot_distrib` under dynamic typing: a raised `TypeError` in the
bucket loop aborts the whole computation (`none`). -/
def plot_distrib_py (offers : List OfferPy) (W : Int) (rangeMax : PyNum) :
    Option (List (Int × ℚ)) :=
  Option.map sortDict (offers.foldl (distribStepPy (bucketGridPy rangeMax W)) (some []))

/-! ### Helper lemmas -/

theorem tdiv_eq_fdiv_of_nonneg {a b : Int} (ha : 0 ≤ a) (hb : 0 ≤ b) :
    Int.tdiv a b = Int.fdiv a b := by
  obtain ⟨m, rfl⟩ := Int.eq_ofNat_of_zero_le ha
  obtain ⟨n, rfl⟩ := Int.eq_ofNat_of_zero_le hb
  exact (Int.ofNat_tdiv m n).symm.trans (Int.ofNat_fdiv m n)

theorem tdiv_two_nonneg {a : Int} (ha : 0 ≤ a) : 0 ≤ Int.tdiv a 2 :=
  Int.tdiv_nonneg ha (by decide)

theorem intList_sum_nonneg : ∀ l : List Int, (∀ x ∈ l, 0 ≤ x) → 0 ≤ l.sum
  | [], _ => le_refl 0
  | x :: xs, h => by
    rw [List.sum_cons]
    exact add_nonneg (h x (List.mem_cons_self _ _))
      (intList_sum_nonneg xs (fun y hy => h y (List.mem_cons_of_mem _ hy)))

theorem getD_mem_of_lt : ∀ (l : List Int) (i : Nat), i < l.length → l.getD i 0 ∈ l
  | x :: xs, 0, _ => by simp
  | x :: xs, i + 1, h => by
    rw [List.getD_cons_succ]
    exact List.mem_cons_of_mem _ (getD_mem_of_lt xs i (by simpa using h))

theorem medianInt_eq_specMedianFloor {l : List Int} (hnn : ∀ x ∈ l, 0 ≤ x) :
    medianInt l = specMedianFloor l := by
  rw [medianInt, specMedianFloor]
  have hperm : List.Perm (List.insertionSort (· ≤ ·) l) l :=
    List.perm_insertionSort (· ≤ ·) l
  have hs : ∀ x ∈ List.insertionSort (· ≤ ·) l, 0 ≤ x :=
    fun x hx => hnn x (hperm.subset hx)
  by_cases hpar : (List.insertionSort (· ≤ ·) l).length % 2 = 1
  · rw [if_pos hpar, if_pos hpar]
  · rw [if_neg hpar, if_neg hpar]
    by_cases hlen : (List.insertionSort (· ≤ ·) l).length = 0
    · rw [List.length_eq_zero] at hlen
      rw [hlen]
      rfl
    · have h1 : (List.insertionSort (· ≤ ·) l).length / 2 - 1
          < (List.insertionSort (· ≤ ·) l).length := by omega
      have h2 : (List.insertionSort (· ≤ ·) l).length / 2
          < (List.insertionSort (· ≤ ·) l).length := by omega
      exact tdiv_eq_fdiv_of_nonneg
        (add_nonneg (hs _ (getD_mem_of_lt _ _ h1)) (hs _ (getD_mem_of_lt _ _ h2)))
        (by decide)

theorem salary_mean_nonneg {o : Offer} (h1 : 0 ≤ o.minSalary) (h2 : 0 ≤ o.maxSalary) :
    0 ≤ salary_mean o :=
  tdiv_two_nonneg (add_nonneg h1 h2)

theorem salary_mean_eq_floor {o : Offer} (h1 : 0 ≤ o.minSalary) (h2 : 0 ≤ o.maxSalary) :
    salary_mean o = Int.fdiv (o.minSalary + o.maxSalary) 2 :=
  tdiv_eq_fdiv_of_nonneg (add_nonneg h1 h2) (by decide)

theorem listMin_mem : ∀ l : List Int, l ≠ [] → listMin l ∈ l
  | [x], _ => by simp [listMin]
  | x :: y :: xs, _ => by
    rw [listMin]
    rcases le_total x (listMin (y :: xs)) with h | h
    · rw [min_eq_left h]; exact List.mem_cons_self _ _
    · rw [min_eq_right h]
      exact List.mem_cons_of_mem _ (listMin_mem (y :: xs) (by simp))

theorem listMin_le : ∀ l : List Int, ∀ z ∈ l, listMin l ≤ z
  | [x], z, hz => by
    rw [List.mem_singleton] at hz
    simp [listMin, hz]
  | x :: y :: xs, z, hz => by
    rw [listMin]
    rcases List.mem_cons.1 hz with h | h
    · exact h ▸ min_le_left _ _
    · exact le_trans (min_le_right _ _) (listMin_le (y :: xs) z h)

theorem listMax_mem : ∀ l : List Int, l ≠ [] → listMax l ∈ l
  | [x], _ => by simp [listMax]
  | x :: y :: xs, _ => by
    rw [listMax]
    rcases le_total x (listMax (y :: xs)) with h | h
    · rw [max_eq_right h]
      exact List.mem_cons_of_mem _ (listMax_mem (y :: xs) (by simp))
    · rw [max_eq_left h]; exact List.mem_cons_self _ _

theorem le_listMax : ∀ l : List Int, ∀ z ∈ l, z ≤ listMax l
  | [x], z, hz => by
    rw [List.mem_singleton] at hz
    simp [listMax, hz]
  | x :: y :: xs, z, hz => by
    rw [listMax]
    rcases List.mem_cons.1 hz with h | h
    · exact h ▸ le_max_left _ _
    · exact le_trans (le_listMax (y :: xs) z h) (le_max_right _ _)

theorem mem_clean_offers {offers : List Offer} {o' : Offer} (h : o' ∈ clean_offers offers) :
    ∃ o ∈ offers, o.minSalary ≠ 0 ∧
      o' = ⟨o.minSalary, if o.maxSalary = 0 then o.minSalary else o.maxSalary⟩ := by
  rw [clean_offers, List.mem_map] at h
  obtain ⟨o, ho, rfl⟩ := h
  rw [List.mem_filter] at ho
  exact ⟨o, ho.1, by simpa using ho.2, rfl⟩

theorem dictSum_nil : dictSum [] = 0 := rfl

theorem dictSum_cons (k : Int) (v : ℚ) (rest : List (Int × ℚ)) :
    dictSum ((k, v) :: rest) = v + dictSum rest := by
  simp [dictSum]

theorem dictSum_dictAdd (d : List (Int × ℚ)) (k : Int) (w : ℚ) :
    dictSum (dictAdd d k w) = dictSum d + w := by
  induction d with
  | nil => simp [dictAdd, dictSum]
  | cons p rest ih =>
    obtain ⟨k', v⟩ := p
    rw [dictAdd]
    by_cases h : k' = k
    · rw [if_pos h, dictSum_cons, dictSum_cons]; ring
    · rw [if_neg h, dictSum_cons, ih, dictSum_cons]; ring

theorem dictGet_dictAdd (d : List (Int × ℚ)) (k b : Int) (w : ℚ) :
    dictGet (dictAdd d k w) b = dictGet d b + if b = k then w else 0 := by
  induction d with
  | nil => by_cases h : b = k <;> simp [dictAdd, dictGet, h]
  | cons p rest ih =>
    obtain ⟨k', v⟩ := p
    rw [dictAdd]
    by_cases h1 : k' = k
    · subst h1
      by_cases h2 : b = k' <;> simp [dictGet, h2]
    · rw [if_neg h1]
      by_cases h2 : b = k'
      · subst h2
        have : ¬ b = k := fun h => h1 (h ▸ rfl)
        simp [dictGet, this]
      · simp [dictGet, h2, ih]

theorem dictSum_foldl_dictAdd (boxes : List Int) (w : ℚ) :
    ∀ res : List (Int × ℚ),
      dictSum (boxes.foldl (fun (r : List (Int × ℚ)) (box : Int) => dictAdd r box w) res)
        = dictSum res + (boxes.length : ℚ) * w := by
  induction boxes with
  | nil => intro res; simp
  | cons b rest ih =>
    intro res
    rw [List.foldl_cons, ih, dictSum_dictAdd, List.length_cons]
    push_cast
    ring

theorem dictGet_foldl_dictAdd (boxes : List Int) (w : ℚ) (b : Int) (hnd : boxes.Nodup) :
    ∀ res : List (Int × ℚ),
      dictGet (boxes.foldl (fun (r : List (Int × ℚ)) (box : Int) => dictAdd r box w) res) b
        = dictGet res b + if b ∈ boxes then w else 0 := by
  induction boxes with
  | nil => intro res; simp
  | cons x rest ih =>
    intro res
    rw [List.foldl_cons, ih (List.Nodup.of_cons hnd), dictGet_dictAdd]
    by_cases hbx : b = x
    · subst hbx
      have hnot : b ∉ rest := (List.nodup_cons.1 hnd).1
      simp [hnot]
    · by_cases hbr : b ∈ rest <;> simp [hbx, hbr]

theorem bucketGrid_nodup (rangeMax W : Int) : (bucketGrid rangeMax W).Nodup := by
  rcases eq_or_ne W 0 with h | h
  · subst h
    simp [bucketGrid, Int.fdiv_zero, List.range_succ]
  · refine List.Nodup.map ?_ (List.nodup_range _)
    intro a b hab
    have : (a : Int) = (b : Int) := mul_right_cancel₀ h hab
    exact_mod_cast this

theorem boxes_filled_nodup (grid : List Int) (o : Offer) (h : grid.Nodup) :
    (boxes_filled grid o).Nodup :=
  List.Nodup.filter _ h

theorem mem_boxes_filled {grid : List Int} {o : Offer} {b : Int} :
    b ∈ boxes_filled grid o ↔ b ∈ grid ∧ (o.minSalary ≤ b ∧ b < o.maxSalary) := by
  rw [boxes_filled, List.mem_filter]
  simp

theorem dictSum_sortDict (d : List (Int × ℚ)) : dictSum (sortDict d) = dictSum d := by
  have hp : List.Perm (sortDict d) d := List.perm_insertionSort dictLe d
  exact (hp.map Prod.snd).sum_eq

theorem dictSum_plot_distrib_aux (grid : List Int) (offers : List Offer) :
    ∀ res : List (Int × ℚ),
      dictSum (offers.foldl (fun (res : List (Int × ℚ)) (o : Offer) =>
          addOfferWeight res grid o) res)
        = dictSum res
          + (offers.countP (fun o => !(boxes_filled grid o).isEmpty) : ℚ) := by
  induction offers with
  | nil => intro res; simp
  | cons o rest ih =>
    intro res
    rw [List.foldl_cons, ih, List.countP_cons]
    by_cases h : (boxes_filled grid o).isEmpty
    · rw [addOfferWeight, if_pos h]
      simp [h]
    · have hlen : (boxes_filled grid o).length ≠ 0 := by
        simpa [List.isEmpty_iff, List.length_eq_zero] using h
      have hne : ((boxes_filled grid o).length : ℚ) ≠ 0 := Nat.cast_ne_zero.mpr hlen
      rw [addOfferWeight, if_neg h, dictSum_foldl_dictAdd, mul_one_div_cancel hne]
      simp only [h, Bool.not_false, if_pos]
      push_cast
      ring

theorem pyRangeMem_eq_none {a b : PyNum} (idx : Int)
    (h : a.isInt = false ∨ b.isInt = false) : pyRangeMem idx a b = none := by
  cases a <;> cases b
  · simp [PyNum.isInt] at h
  · rfl
  · rfl
  · rfl

theorem boxes_filled_py_eq_none {grid : List Int} {o : OfferPy}
    (hfl : o.minSalary.isInt = false ∨ o.maxSalary.isInt = false)
    (hne : grid ≠ []) : boxes_filled_py grid o = none := by
  cases grid with
  | nil => exact absurd rfl hne
  | cons b rest =>
    rw [boxes_filled_py, List.foldr_cons, pyRangeMem_eq_none b hfl]

theorem distribStepPy_foldl_none (grid : List Int) :
    ∀ offers : List OfferPy, List.foldl (distribStepPy grid) none offers = none
  | [] => rfl
  | o :: rest => by
    rw [List.foldl_cons]
    exact distribStepPy_foldl_none grid rest

theorem distribStepPy_foldl_mem_none (grid : List Int) {o : OfferPy}
    (hbf : boxes_filled_py grid o = none) :
    ∀ (offers : List OfferPy), o ∈ offers →
      ∀ acc : Option (List (Int × ℚ)),
        List.foldl (distribStepPy grid) acc offers = none := by
  intro offers
  induction offers with
  | nil => intro h; cases h
  | cons o' rest ih =>
    intro hmem acc
    rw [List.foldl_cons]
    rcases List.mem_cons.1 hmem with h | h
    · subst h
      have hstep : distribStepPy grid acc o = none := by
        cases acc with
        | none => rfl
        | some res => rw [distribStepPy, hbf]
      rw [hstep]
      exact distribStepPy_foldl_none grid rest
    · exact ih h _

/-- Under the precondition `maxSalary ≥ minSalary ≥ 0` on every input
record, every cleaned record satisfies `maxSalary ≥ minSalary > 0` (and
the `maxSalary = 0` replacement never fires, so `clean_offers` agrees
with the executable line 73). -/
theorem clean_offers_bounds {offers : List Offer}
    (hpre : ∀ o ∈ offers, 0 ≤ o.minSalary ∧ o.minSalary ≤ o.maxSalary) :
    ∀ o' ∈ clean_offers offers, 0 < o'.minSalary ∧ o'.minSalary ≤ o'.maxSalary := by
  intro o' h
  obtain ⟨o, ho, hne, rfl⟩ := mem_clean_offers h
  obtain ⟨h0, hle⟩ := hpre o ho
  have hpos : 0 < o.minSalary := lt_of_le_of_ne h0 (Ne.symm hne)
  refine ⟨hpos, ?_⟩
  by_cases hmax : o.maxSalary = 0
  · simp [hmax]
  · simp [hmax, hle]

theorem calculate_salary_stats_eq_some {offers : List Offer}
    (hne : clean_offers offers ≠ []) :
    calculate_salary_stats offers
      = some
          { mean := Int.tdiv ((clean_offers offers).map salary_mean).sum
              (((clean_offers offers).map salary_mean).length : Int)
            median := medianInt ((clean_offers offers).map salary_mean)
            min := listMin ((clean_offers offers).map Offer.minSalary)
            max := listMax ((clean_offers offers).map Offer.maxSalary) } := by
  have hoff : ¬ offers.isEmpty := by
    rw [List.isEmpty_iff]
    intro h
    subst h
    exact hne rfl
  have hcl : ¬ (clean_offers offers).isEmpty := by
    rw [List.isEmpty_iff]
    exact hne
  simp only [calculate_salary_stats, if_neg hoff, if_neg hcl]

/-! ### Claim theorems -/

/-- Claim C1: the cleaning step does drop exactly the records with
`minSalary == 0`, but the claimed per-record replacement
`maxSalary := minSalary` (also documented by the source's own comment on
line 72) is not what line 73 performs — the lambda returns the whole
filtered `minSalary` column, never the record's own value.  On the input
`[{min 10000, max 0}, {min 20000, max 30000}]` the first surviving
record's zero `maxSalary` makes `Series.apply` take the
DataFrame-expansion path and the mixed rows raise, so the replacement
never occurs and the query is dropped; with the rows swapped the zero
cell instead receives the whole column `[20000, 10000]`, not the scalar
`10000`.  `clean_offers` exhibits the behaviour the claim describes. -/
theorem claim1_maxSalary_replacement_never_per_record :
    cleaned_cells [⟨10000, 0⟩, ⟨20000, 30000⟩] = none
    ∧ cleaned_cells [⟨20000, 30000⟩, ⟨10000, 0⟩]
        = some [(20000, Cell.num 30000), (10000, Cell.series [20000, 10000])]
    ∧ Cell.series [20000, 10000] ≠ Cell.num 10000
    ∧ clean_offers [⟨10000, 0⟩, ⟨20000, 30000⟩] = [⟨10000, 10000⟩, ⟨20000, 30000⟩] :=
  ⟨by decide, by decide, by decide, by decide⟩

/-- Claim C7: on the input `[{min 5, max 0}, {min 7, max 9}]` the
surviving cleaned set is non-empty, but the first surviving record's
zero `maxSalary` makes the line-73 replacement raise (the first mapped
element is a `Series` and further rows follow), so
`calculate_salary_stats` never returns and the query is silently
dropped: the claimed `min = min(minSalary_i) = 5` and
`max = max(maxSalary_i) = 9` over the cleaned records (shown via
`clean_offers`) are never produced. -/
theorem claim7_zero_max_survivor_drops_query :
    cleaned_cells [⟨5, 0⟩, ⟨7, 9⟩] = none
    ∧ clean_offers [⟨5, 0⟩, ⟨7, 9⟩] = [⟨5, 5⟩, ⟨7, 9⟩]
    ∧ listMin ((clean_offers [⟨5, 0⟩, ⟨7, 9⟩]).map Offer.minSalary) = 5
    ∧ listMax ((clean_offers [⟨5, 0⟩, ⟨7, 9⟩]).map Offer.maxSalary) = 9 :=
  ⟨by decide, by decide, by decide, by decide⟩

/-- Claim C2, counterexample: the record `{min -5, max -1}` survives the
`minSalary != 0` filter with `minSalary < 0`, and `{min 10000, max 500}`
survives with `maxSalary < minSalary`, so the claimed invariant
`maxSalary ≥ minSalary > 0` fails on the cleaned records. -/
theorem claim2_counterexample :
    ¬ (∀ o ∈ clean_offers [⟨-5, -1⟩, ⟨10000, 500⟩],
        0 < o.minSalary ∧ o.minSalary ≤ o.maxSalary) := by
  decide

/-- Claim C2, amended: under the precondition that every input record
satisfies `maxSalary ≥ minSalary ≥ 0`, every record surviving the
cleaning step satisfies `maxSalary ≥ minSalary > 0`, and the derived
statistics satisfy `max ≥ min ≥ 0`. -/
theorem claim2_amended_invariant (offers : List Offer)
    (hpre : ∀ o ∈ offers, 0 ≤ o.minSalary ∧ o.minSalary ≤ o.maxSalary) :
    (∀ o ∈ clean_offers offers, 0 < o.minSalary ∧ o.minSalary ≤ o.maxSalary)
    ∧ ∀ s : QueryStats, calculate_salary_stats offers = some s →
        0 ≤ s.min ∧ s.min ≤ s.max := by
  have hb := clean_offers_bounds hpre
  refine ⟨hb, ?_⟩
  intro s hs
  have hne : clean_offers offers ≠ [] := by
    intro h
    rw [calculate_salary_stats] at hs
    by_cases h0 : offers.isEmpty
    · rw [if_pos h0] at hs; cases hs
    · simp only [if_neg h0, h, List.isEmpty_nil, if_pos] at hs
      cases hs
  rw [calculate_salary_stats_eq_some hne] at hs
  obtain rfl := (Option.some_inj.mp hs).symm
  obtain ⟨o0, ho0⟩ := List.exists_mem_of_ne_nil _ hne
  have hmins_ne : (clean_offers offers).map Offer.minSalary ≠ [] := by
    simpa using hne
  constructor
  · have hmem := listMin_mem _ hmins_ne
    rw [List.mem_map] at hmem
    obtain ⟨o', ho', heq⟩ := hmem
    rw [← heq]
    exact le_of_lt (hb o' ho').1
  · calc listMin ((clean_offers offers).map Offer.minSalary)
        ≤ o0.minSalary := listMin_le _ _ (List.mem_map_of_mem _ ho0)
      _ ≤ o0.maxSalary := (hb o0 ho0).2
      _ ≤ listMax ((clean_offers offers).map Offer.maxSalary) :=
          le_listMax _ _ (List.mem_map_of_mem _ ho0)

/-- Claim C2, witness for the amended theorem at a concrete input. -/
theorem claim2_witness :
    (∀ o ∈ [(⟨10000, 20000⟩ : Offer)], 0 ≤ o.minSalary ∧ o.minSalary ≤ o.maxSalary)
    ∧ ((∀ o ∈ clean_offers [⟨10000, 20000⟩],
          0 < o.minSalary ∧ o.minSalary ≤ o.maxSalary)
       ∧ ∀ s : QueryStats, calculate_salary_stats [⟨10000, 20000⟩] = some s →
           0 ≤ s.min ∧ s.min ≤ s.max) :=
  ⟨by decide, claim2_amended_invariant [⟨10000, 20000⟩] (by decide)⟩

/-- Claim C9, counterexample: every offer of `[{min -1, max -1}]` fails
the `minSalary > 0` test, yet `calculate_salary_stats` does not yield
`Empty`: the filter the code applies is `minSalary != 0`, so the record
survives and full statistics are returned. -/
theorem claim9_counterexample :
    (∀ o ∈ [(⟨-1, -1⟩ : Offer)], ¬ 0 < o.minSalary)
    ∧ calculate_salary_stats [⟨-1, -1⟩] = some ⟨-1, -1, -1, -1⟩ :=
  ⟨by decide, by decide⟩

/-- Claim C9, amended: for every query whose offer sequence is empty or
whose offers all have `minSalary = 0`, `calculate_salary_stats` yields
`Empty` (`none`), and the query is silently omitted from the assembled
report, leaving the processing of all other queries unchanged. -/
theorem claim9_amended_empty_query (name : String) (offers : List Offer)
    (h : ∀ o ∈ offers, o.minSalary = 0)
    (pre post : List (String × List Offer)) :
    calculate_salary_stats offers = none
    ∧ report_all (pre ++ (name, offers) :: post) = report_all (pre ++ post) := by
  have hclean : clean_offers offers = [] := by
    rw [clean_offers, List.map_eq_nil_iff, List.filter_eq_nil_iff]
    intro o ho
    simp [h o ho]
  have hnone : calculate_salary_stats offers = none := by
    rw [calculate_salary_stats]
    by_cases h0 : offers.isEmpty
    · rw [if_pos h0]
    · simp only [if_neg h0, hclean, List.isEmpty_nil, if_pos]
  refine ⟨hnone, ?_⟩
  rw [report_all, report_all, List.filterMap_append, List.filterMap_append,
    List.filterMap_cons, hnone]
  rfl

/-- Claim C9, witness for the amended theorem at a concrete input. -/
theorem claim9_witness :
    (∀ o ∈ [(⟨0, 0⟩ : Offer)], o.minSalary = 0)
    ∧ calculate_salary_stats [⟨0, 0⟩] = none
    ∧ report_all [("a", [⟨1, 2⟩]), ("q", [⟨0, 0⟩])] = report_all [("a", [⟨1, 2⟩])] := by
  refine ⟨by decide, ?_, ?_⟩
  · exact (claim9_amended_empty_query "q" [⟨0, 0⟩] (by decide) [("a", [⟨1, 2⟩])] []).1
  · exact (claim9_amended_empty_query "q" [⟨0, 0⟩] (by decide) [("a", [⟨1, 2⟩])] []).2

/-- Claim C5: for a positive bucket width the grid is exactly the set of
integers `k * bucketWidth` for `k = 0 .. floor(rangeMax / bucketWidth)`
inclusive.  The grid is computed from the query's `max` value alone
(`bucketGrid` takes no offers), so it is independent of individual
offers. -/
theorem claim5_bucket_grid (rangeMax W : Int) (hW : 0 < W) (b : Int) :
    b ∈ bucketGrid rangeMax W
      ↔ ∃ k : Int, 0 ≤ k ∧ k ≤ Int.fdiv rangeMax W ∧ b = k * W := by
  rw [bucketGrid, List.mem_map]
  constructor
  · rintro ⟨k, hk, rfl⟩
    rw [List.mem_range] at hk
    exact ⟨(k : Int), Int.natCast_nonneg k, by omega, rfl⟩
  · rintro ⟨k, hk0, hkle, rfl⟩
    refine ⟨k.toNat, ?_, ?_⟩
    · rw [List.mem_range]
      omega
    · rw [Int.toNat_of_nonneg hk0]

/-- Claim C5, witness at a concrete input. -/
theorem claim5_witness :
    (0 : Int) < 5000
    ∧ (10000 ∈ bucketGrid 20000 5000
        ↔ ∃ k : Int, 0 ≤ k ∧ k ≤ Int.fdiv 20000 5000 ∧ (10000 : Int) = k * 5000) :=
  ⟨by decide, claim5_bucket_grid 20000 5000 (by decide) 10000⟩

/-- Claim C8: both report orders are orderings of the collected entries
by the key `(max, median)`: the descending order is sorted so that each
entry's key is lexicographically at least its successor's (primary `max`
descending, ties broken by `median` descending), the ascending order is
the same two-key comparison reversed, and on the tie scenario
`max = 50000` with medians `30000` / `20000` the descending order places
the higher median first regardless of input order. -/
theorem claim8_report_ordering :
    (∀ l : List (String × QueryStats),
      List.Perm (sortStatsDesc l) l
      ∧ List.Sorted descBefore (sortStatsDesc l)
      ∧ List.Perm (sortStatsAsc l) l
      ∧ List.Sorted ascBefore (sortStatsAsc l))
    ∧ sortStatsDesc [("q2", ⟨0, 20000, 0, 50000⟩), ("q1", ⟨0, 30000, 0, 50000⟩)]
        = [("q1", ⟨0, 30000, 0, 50000⟩), ("q2", ⟨0, 20000, 0, 50000⟩)]
    ∧ sortStatsDesc [("q1", ⟨0, 30000, 0, 50000⟩), ("q2", ⟨0, 20000, 0, 50000⟩)]
        = [("q1", ⟨0, 30000, 0, 50000⟩), ("q2", ⟨0, 20000, 0, 50000⟩)] :=
  ⟨fun l => ⟨List.perm_insertionSort descBefore l, List.sorted_insertionSort descBefore l,
    List.perm_insertionSort ascBefore l, List.sorted_insertionSort ascBefore l⟩,
   by decide, by decide⟩

/-- Claim C3: a bucket-start `b` of the grid is counted as overlapped by
an offer exactly when `minSalary ≤ b < maxSalary` (half-open, `b` equal
to `maxSalary` excluded); an offer overlapping `n ≥ 1` buckets adds
weight exactly `1/n` to each of them; and on the single offer
`{min 10000, max 20000}` with width `5000` and range max `20000` the
buckets `10000` and `15000` each receive weight `0.5`. -/
theorem claim3_bucket_overlap (o : Offer) (rangeMax W b : Int)
    (hb : b ∈ bucketGrid rangeMax W) (res : List (Int × ℚ)) :
    (b ∈ boxes_filled (bucketGrid rangeMax W) o
      ↔ o.minSalary ≤ b ∧ b < o.maxSalary)
    ∧ (b ∈ boxes_filled (bucketGrid rangeMax W) o →
        dictGet (addOfferWeight res (bucketGrid rangeMax W) o) b
          = dictGet res b
            + 1 / ((boxes_filled (bucketGrid rangeMax W) o).length : ℚ))
    ∧ plot_distrib [⟨10000, 20000⟩] 5000 20000 = [(10000, 1/2), (15000, 1/2)] := by
  refine ⟨?_, ?_, ?_⟩
  · simp [mem_boxes_filled, hb]
  · intro hmem
    have hnd : (boxes_filled (bucketGrid rangeMax W) o).Nodup :=
      boxes_filled_nodup _ _ (bucketGrid_nodup rangeMax W)
    have hne : ¬ (boxes_filled (bucketGrid rangeMax W) o).isEmpty := by
      rw [List.isEmpty_iff]
      intro h
      rw [h] at hmem
      cases hmem
    simp only [addOfferWeight, if_neg hne]
    rw [dictGet_foldl_dictAdd _ _ _ hnd, if_pos hmem]
  · have hbx : boxes_filled (bucketGrid 20000 5000) ⟨10000, 20000⟩ = [10000, 15000] := by
      decide
    simp only [plot_distrib, List.foldl_cons, List.foldl_nil, addOfferWeight, hbx]
    norm_num [dictAdd, sortDict, List.insertionSort, List.orderedInsert, dictLe]

/-- Claim C3, witness at a concrete input. -/
theorem claim3_witness :
    10000 ∈ bucketGrid 20000 5000
    ∧ ((10000 ∈ boxes_filled (bucketGrid 20000 5000) ⟨10000, 20000⟩
          ↔ (⟨10000, 20000⟩ : Offer).minSalary ≤ 10000
            ∧ (10000 : Int) < (⟨10000, 20000⟩ : Offer).maxSalary)
       ∧ (10000 ∈ boxes_filled (bucketGrid 20000 5000) ⟨10000, 20000⟩ →
           dictGet (addOfferWeight [] (bucketGrid 20000 5000) ⟨10000, 20000⟩) 10000
             = dictGet [] 10000
               + 1 / ((boxes_filled (bucketGrid 20000 5000) ⟨10000, 20000⟩).length : ℚ))
       ∧ plot_distrib [⟨10000, 20000⟩] 5000 20000 = [(10000, 1/2), (15000, 1/2)]) :=
  ⟨by decide, claim3_bucket_overlap ⟨10000, 20000⟩ 20000 5000 10000 (by decide) []⟩

/-- Claim C4: the total mass of the distribution equals the number of
offers overlapping at least one bucket; the total is therefore at most
the number of offers, with equality exactly when every offer overlaps a
bucket; and a single-point offer such as `{min 10000, max 10000}`
overlaps no bucket and contributes zero mass without any failure. -/
theorem claim4_mass_conservation (offers : List Offer) (W rangeMax : Int)
    (hW : 0 < W) :
    dictSum (plot_distrib offers W rangeMax)
      = (offers.countP
          (fun o => !(boxes_filled (bucketGrid rangeMax W) o).isEmpty) : ℚ)
    ∧ dictSum (plot_distrib offers W rangeMax) ≤ (offers.length : ℚ)
    ∧ (dictSum (plot_distrib offers W rangeMax) = (offers.length : ℚ)
        ↔ ∀ o ∈ offers, boxes_filled (bucketGrid rangeMax W) o ≠ [])
    ∧ (∀ grid : List Int, boxes_filled grid ⟨10000, 10000⟩ = [])
    ∧ plot_distrib [⟨10000, 10000⟩] W rangeMax = [] := by
  have hpoint : ∀ grid : List Int, boxes_filled grid (⟨10000, 10000⟩ : Offer) = [] := by
    intro grid
    rw [boxes_filled, List.filter_eq_nil_iff]
    intro b hb
    simp only [decide_eq_true_eq]
    omega
  have hmain : dictSum (plot_distrib offers W rangeMax)
      = (offers.countP
          (fun o => !(boxes_filled (bucketGrid rangeMax W) o).isEmpty) : ℚ) := by
    simp only [plot_distrib]
    rw [dictSum_sortDict, dictSum_plot_distrib_aux, dictSum_nil, zero_add]
  refine ⟨hmain, ?_, ?_, hpoint, ?_⟩
  · rw [hmain]
    exact_mod_cast List.countP_le_length _
  · rw [hmain, Nat.cast_inj, List.countP_eq_length]
    constructor
    · intro hall o ho
      have h := hall o ho
      rw [Bool.not_eq_eq_eq_not, Bool.not_true, List.isEmpty_eq_false] at h
      exact h
    · intro hall o ho
      rw [Bool.not_eq_eq_eq_not, Bool.not_true, List.isEmpty_eq_false]
      exact hall o ho
  · simp [plot_distrib, addOfferWeight, hpoint, sortDict, List.insertionSort]

/-- Claim C4, witness at a concrete input. -/
theorem claim4_witness :
    (0 : Int) < 5000
    ∧ (dictSum (plot_distrib [⟨10000, 20000⟩] 5000 20000)
        = (([(⟨10000, 20000⟩ : Offer)].countP
            (fun o => !(boxes_filled (bucketGrid 20000 5000) o).isEmpty)) : ℚ)
       ∧ dictSum (plot_distrib [⟨10000, 20000⟩] 5000 20000)
          ≤ (([(⟨10000, 20000⟩ : Offer)].length : Nat) : ℚ)
       ∧ (dictSum (plot_distrib [⟨10000, 20000⟩] 5000 20000)
            = (([(⟨10000, 20000⟩ : Offer)].length : Nat) : ℚ)
          ↔ ∀ o ∈ [(⟨10000, 20000⟩ : Offer)],
              boxes_filled (bucketGrid 20000 5000) o ≠ [])
       ∧ (∀ grid : List Int, boxes_filled grid ⟨10000, 10000⟩ = [])
       ∧ plot_distrib [⟨10000, 10000⟩] 5000 20000 = []) :=
  ⟨by decide, claim4_mass_conservation [⟨10000, 20000⟩] 5000 20000 (by decide)⟩

/-- Claim C6, counterexample: on the surviving record `{min -5, max -4}`
the code computes the midpoint `int(-4.5) = -4` (truncation toward
zero), whereas the claimed `floor((min + max) / 2)` is `-5`; the
returned mean is `-4`, not the claimed `floor(average) = -5`. -/
theorem claim6_counterexample :
    calculate_salary_stats [⟨-5, -4⟩] = some ⟨-4, -4, -5, -4⟩
    ∧ specMeanFloor ((clean_offers [⟨-5, -4⟩]).map
        (fun (o : Offer) => Int.fdiv (o.minSalary + o.maxSalary) 2)) = -5
    ∧ (-4 : Int) ≠ -5 :=
  ⟨by decide, by decide, by decide⟩

/-- Claim C6, amended: under the precondition that every input record
satisfies `maxSalary ≥ minSalary ≥ 0` (all salary data nonnegative, so
integer truncation coincides with flooring and the zero-`maxSalary`
replacement never fires), `calculate_salary_stats` assigns each surviving
record the midpoint `floor((minSalary + maxSalary) / 2)` and returns
`mean = floor(average(salaryMean_i))` and
`median = floor(median(salaryMean_i))`, the even-count median being the
average of the two middle values, then floored. -/
theorem claim6_amended_stats (offers : List Offer)
    (hpre : ∀ o ∈ offers, 0 ≤ o.minSalary ∧ o.minSalary ≤ o.maxSalary)
    (hne : clean_offers offers ≠ []) :
    ∃ s : QueryStats, calculate_salary_stats offers = some s
      ∧ (∀ o ∈ clean_offers offers,
          salary_mean o = Int.fdiv (o.minSalary + o.maxSalary) 2)
      ∧ s.mean = specMeanFloor ((clean_offers offers).map salary_mean)
      ∧ s.median = specMedianFloor ((clean_offers offers).map salary_mean) := by
  have hb := clean_offers_bounds hpre
  have hnn : ∀ o ∈ clean_offers offers, 0 ≤ o.minSalary ∧ 0 ≤ o.maxSalary := by
    intro o ho
    obtain ⟨h1, h2⟩ := hb o ho
    exact ⟨le_of_lt h1, le_trans (le_of_lt h1) h2⟩
  have hmid : ∀ x ∈ (clean_offers offers).map salary_mean, 0 ≤ x := by
    intro x hx
    rw [List.mem_map] at hx
    obtain ⟨o, ho, rfl⟩ := hx
    exact salary_mean_nonneg (hnn o ho).1 (hnn o ho).2
  refine ⟨_, calculate_salary_stats_eq_some hne, ?_, ?_, ?_⟩
  · intro o ho
    exact salary_mean_eq_floor (hnn o ho).1 (hnn o ho).2
  · show Int.tdiv _ _ = specMeanFloor _
    rw [specMeanFloor]
    exact tdiv_eq_fdiv_of_nonneg (intList_sum_nonneg _ hmid) (Int.natCast_nonneg _)
  · show medianInt _ = specMedianFloor _
    exact medianInt_eq_specMedianFloor hmid

/-- Claim C6, witness for the amended theorem at a concrete input. -/
theorem claim6_witness :
    (∀ o ∈ [(⟨10, 20⟩ : Offer)], 0 ≤ o.minSalary ∧ o.minSalary ≤ o.maxSalary)
    ∧ clean_offers [⟨10, 20⟩] ≠ []
    ∧ ∃ s : QueryStats, calculate_salary_stats [⟨10, 20⟩] = some s
        ∧ (∀ o ∈ clean_offers [⟨10, 20⟩],
            salary_mean o = Int.fdiv (o.minSalary + o.maxSalary) 2)
        ∧ s.mean = specMeanFloor ((clean_offers [⟨10, 20⟩]).map salary_mean)
        ∧ s.median = specMedianFloor ((clean_offers [⟨10, 20⟩]).map salary_mean) :=
  ⟨by decide, by decide, claim6_amended_stats [⟨10, 20⟩] (by decide) (by decide)⟩

/-- Claim C10, counterexample: the offer `{min -3.5, max -2.5}` has
non-integer `minSalary` and `maxSalary`, yet the distribution
computation does not fail: with the query's `max` at `-2.5` the bucket
grid is empty, the membership test never runs, and the result is the
empty distribution. -/
theorem claim10_counterexample :
    (PyNum.float (-7/2)).isInt = false
    ∧ plot_distrib_py [⟨.float (-7/2), .float (-5/2)⟩] 1000 (.float (-5/2)) = some [] := by
  refine ⟨rfl, ?_⟩
  have h1 : pyFloorDivW (.float (-5/2)) 1000 = -1 := by
    show ⌊(-5/2 : ℚ) / ((1000 : Int) : ℚ)⌋ = -1
    rw [Int.floor_eq_iff]
    norm_num
  have hg : bucketGridPy (.float (-5/2)) 1000 = [] := by
    simp [bucketGridPy, h1]
  simp [plot_distrib_py, hg, distribStepPy, boxes_filled_py, sortDict, List.insertionSort]

/-- Claim C10, amended: as soon as the bucket grid is non-empty, a
cleaned offer whose `minSalary` or `maxSalary` is a float makes the
distribution computation fail: the first membership test
`index in range(minSalary, maxSalary)` raises `TypeError` instead of
producing a bucket contribution.  (With an empty grid the loop body
never runs and the computation trivially succeeds.) -/
theorem claim10_amended_float_failure (offers : List OfferPy) (o : OfferPy)
    (ho : o ∈ offers) (hfl : o.minSalary.isInt = false ∨ o.maxSalary.isInt = false)
    (W : Int) (rangeMax : PyNum) (hgrid : bucketGridPy rangeMax W ≠ []) :
    plot_distrib_py offers W rangeMax = none := by
  rw [plot_distrib_py,
    distribStepPy_foldl_mem_none (bucketGridPy rangeMax W)
      (boxes_filled_py_eq_none hfl hgrid) offers ho (some [])]
  rfl

/-- Claim C10, witness for the amended theorem at a concrete input. -/
theorem claim10_witness :
    ((PyNum.float (21/2)).isInt = false ∨ (PyNum.int 20000).isInt = false)
    ∧ bucketGridPy (.int 20000) 5000 ≠ []
    ∧ plot_distrib_py [⟨.float (21/2), .int 20000⟩] 5000 (.int 20000) = none :=
  ⟨Or.inl rfl, by decide,
    claim10_amended_float_failure [⟨.float (21/2), .int 20000⟩]
      ⟨.float (21/2), .int 20000⟩ (List.mem_singleton.mpr rfl) (Or.inl rfl)
      5000 (.int 20000) (by decide)⟩
